import Mathlib

/-!
Shallow embedding of the marketplace backend (FastAPI + Firestore document
store) for the engagement-lifecycle routers:

  * `src/app/models/schemas.py`   — entity records (Pydantic models),
  * `src/app/db/firebase_ops.py`  — document-store primitives (get / save /
    update / query on collections keyed by document id),
  * `src/app/routers/projects.py` — `create_project`, `update_project`,
  * `src/app/routers/bids.py`     — `submit_bid_for_project`, `accept_bid`,
  * `src/app/routers/submissions.py` — `submit_work_for_project`,
    `approve_submission`,
  * `src/app/routers/payments.py` — `checkout_project_payment`,
  * `src/app/routers/reviews.py`  — `submit_review`.

Modelling conventions:

  * UUIDs are `Nat` (the code only generates, stores and compares them);
    `datetime` values are `Nat` ticks; Python `float` amounts are `Rat`
    (the code only copies and order-compares amounts; no float rounding is
    load-bearing for any endpoint embedded here).
  * Each Firestore collection is an association list `List (Uuid × doc)`;
    `get` is first-match lookup, `update` merges field changes into every
    entry with the key (the routers always key documents by the entity id),
    `save` overwrites or appends.
  * `decode_access_token` is an external collaborator; an endpoint takes the
    decoded result `Option Uuid` directly.
  * Store writes can fail (the wrapper returns `None` / `False` on any
    Firestore exception).  A write schedule `List Bool` is threaded through
    each endpoint: every `save` / `update` consumes one entry (`true` =
    write applied, `false` = write failed, store unchanged); an exhausted
    schedule means all remaining writes succeed.
  * Each `HTTPException` raise site becomes one `Err` constructor carrying
    its HTTP status code through `Err.code`.
  * Endpoints return `Except Err result × St`: the HTTP outcome plus the
    final persistent state (the store survives a failed request).
-/

abbrev Uuid := Nat
abbrev Amount := Rat
abbrev DateTs := Nat

/-- `schemas.User` (fields the embedded endpoints read: `user_id`, `role`). -/
structure User where
  user_id : Uuid
  username : String
  role : String
  deriving Repr, DecidableEq

/-- `schemas.Project` (document stored in collection `projects`). -/
structure Project where
  project_id : Uuid
  client_user_id : Uuid
  freelancer_user_id : Option Uuid := none
  title : String
  description : String
  budget : Option Amount := none
  deadline : Option DateTs := none
  tags : Option (List String) := none
  status : String
  creation_date : DateTs
  last_updated_date : DateTs
  deriving Repr, DecidableEq

/-- `schemas.Bid` (document stored in collection `bids`). -/
structure Bid where
  bid_id : Uuid
  project_id : Uuid
  freelancer_user_id : Uuid
  proposal : String
  amount : Amount
  estimated_completion_time : Option String := none
  bid_date : DateTs
  status : String := "pending"
  deriving Repr, DecidableEq

/-- `schemas.Contract` (document stored in collection `contracts`). -/
structure Contract where
  contract_id : Uuid
  project_id : Uuid
  client_id : Uuid
  freelancer_id : Uuid
  terms : String
  agreed_amount : Amount
  start_date : DateTs
  end_date : Option DateTs := none
  status : String
  deriving Repr, DecidableEq

/-- One entry of `WorkSubmission.files` (`{filename, url, size}` dict). -/
structure FileRef where
  filename : String
  url : String
  size : Nat
  deriving Repr, DecidableEq

/-- `schemas.WorkSubmission` (document stored in collection `submissions`). -/
structure WorkSubmission where
  submission_id : Uuid
  project_id : Uuid
  freelancer_id : Uuid
  files : Option (List FileRef) := none
  notes : Option String := none
  submission_date : DateTs
  version : Option Int := none
  deriving Repr, DecidableEq

/-- `schemas.Transaction` (document stored in collection `transactions`). -/
structure Transaction where
  transaction_id : Uuid
  project_id : Option Uuid := none
  payer_user_id : Option Uuid := none
  payee_user_id : Uuid
  amount : Amount
  currency : String := "USD"
  transaction_type : String
  status : String
  transaction_date : DateTs
  deriving Repr, DecidableEq

/-- `schemas.Review` (document stored in collection `reviews`). -/
structure Review where
  review_id : Uuid
  project_id : Uuid
  reviewer_user_id : Uuid
  reviewee_user_id : Uuid
  rating : Int
  comment : Option String := none
  review_date : DateTs
  deriving Repr, DecidableEq

/-- `schemas.FreelancerProfile` (field written by the review workflow). -/
structure FreelancerProfile where
  user_id : Uuid
  average_rating : Option Amount := none
  deriving Repr, DecidableEq

/-- The document store: one collection per entity type, keyed by the string
form of the entity id (modelled as the id itself). -/
structure DB where
  users : List (Uuid × User) := []
  projects : List (Uuid × Project) := []
  bids : List (Uuid × Bid) := []
  contracts : List (Uuid × Contract) := []
  submissions : List (Uuid × WorkSubmission) := []
  transactions : List (Uuid × Transaction) := []
  reviews : List (Uuid × Review) := []
  freelancer_profiles : List (Uuid × FreelancerProfile) := []
  deriving Repr, DecidableEq

/-- `FirestoreBaseModel.get`: fetch the document with the given id (first
match in the collection). -/
def lookupDoc {α : Type} : List (Uuid × α) → Uuid → Option α
  | [], _ => none
  | e :: t, k => if e.1 = k then some e.2 else lookupDoc t k

/-- `FirestoreBaseModel.update`: merge a field change `f` into the stored
document with the given id. -/
def setDoc {α : Type} : List (Uuid × α) → Uuid → (α → α) → List (Uuid × α)
  | [], _, _ => []
  | e :: t, k, f => (if e.1 = k then (e.1, f e.2) else e) :: setDoc t k f

/-- `FirestoreBaseModel.save`: overwrite the document with the given id, or
append it when absent. -/
def saveDoc {α : Type} (l : List (Uuid × α)) (k : Uuid) (v : α) :
    List (Uuid × α) :=
  if l.any (fun e => e.1 = k) then setDoc l k (fun _ => v) else l ++ [(k, v)]

/-- `FirestoreBaseModel.query collection field == value`, specialised to the
filters the routers use; `p` is the field predicate.  Returns the documents. -/
def queryDocs {α : Type} (l : List (Uuid × α)) (p : α → Bool) : List α :=
  (l.filter (fun e => p e.2)).map (·.2)

/-- Request state: the document store plus the write schedule (one `Bool` per
upcoming `save`/`update`; exhausted schedule = writes succeed). -/
structure St where
  db : DB
  ws : List Bool := []
  deriving Repr, DecidableEq

/-- Consume one write outcome from the schedule. -/
def takeW : List Bool → Bool × List Bool
  | [] => (true, [])
  | b :: rest => (b, rest)

/-- One constructor per `HTTPException` raise site in the embedded endpoints. -/
inductive Err where
  | unauthorized
  | authUserNotFound
  | onlyClientsCreateProjects
  | couldNotCreateProject
  | projectNotFound
  | notAuthorizedUpdateProject
  | noValidFieldsToUpdate
  | couldNotUpdateProject
  | projectNotFoundAfterUpdate
  | onlyFreelancersBid
  | projectNotOpenForBids
  | alreadyBidOnProject
  | couldNotSubmitBid
  | notAuthorizedAcceptBids
  | bidNotFound
  | bidNotOfThisProject
  | projectNotOpenForAccept
  | bidNotPending
  | failedUpdateBidStatus
  | failedUpdateProjectStatus
  | failedCreateContract
  | noAssignedFreelancer
  | notAssignedFreelancer
  | projectNotInProgress
  | noActiveContract
  | emptyVersionMax
  | couldNotSaveSubmission
  | failedSetAwaitingReview
  | submissionNotFound
  | onlyOwnerApproves
  | submissionNotOfThisProject
  | projectNotAwaitingReview
  | failedSetCompleted
  | onlyClientPays
  | projectNotCompleted
  | noFreelancerToPay
  | paymentAlreadyProcessed
  | budgetInvalidNoAcceptedBid
  | couldNotSaveTransaction
  | reviewerMismatch
  | reviewsOnlyForCompleted
  | clientReviewsOnlyFreelancer
  | freelancerReviewsOnlyClient
  | notAuthorizedToReview
  | duplicateReview
  | couldNotSaveReview
  deriving Repr, DecidableEq

/-- The HTTP status code each raise site uses (`emptyVersionMax` is the
uncaught `ValueError` in `submit_work_for_project`, surfaced as 500 by the
framework). -/
def Err.code : Err → Nat
  | .unauthorized => 401
  | .authUserNotFound => 404
  | .onlyClientsCreateProjects => 403
  | .couldNotCreateProject => 500
  | .projectNotFound => 404
  | .notAuthorizedUpdateProject => 403
  | .noValidFieldsToUpdate => 400
  | .couldNotUpdateProject => 500
  | .projectNotFoundAfterUpdate => 404
  | .onlyFreelancersBid => 403
  | .projectNotOpenForBids => 400
  | .alreadyBidOnProject => 400
  | .couldNotSubmitBid => 500
  | .notAuthorizedAcceptBids => 403
  | .bidNotFound => 404
  | .bidNotOfThisProject => 400
  | .projectNotOpenForAccept => 400
  | .bidNotPending => 400
  | .failedUpdateBidStatus => 500
  | .failedUpdateProjectStatus => 500
  | .failedCreateContract => 500
  | .noAssignedFreelancer => 403
  | .notAssignedFreelancer => 403
  | .projectNotInProgress => 400
  | .noActiveContract => 400
  | .emptyVersionMax => 500
  | .couldNotSaveSubmission => 500
  | .failedSetAwaitingReview => 500
  | .submissionNotFound => 404
  | .onlyOwnerApproves => 403
  | .submissionNotOfThisProject => 400
  | .projectNotAwaitingReview => 400
  | .failedSetCompleted => 500
  | .onlyClientPays => 403
  | .projectNotCompleted => 400
  | .noFreelancerToPay => 400
  | .paymentAlreadyProcessed => 400
  | .budgetInvalidNoAcceptedBid => 400
  | .couldNotSaveTransaction => 500
  | .reviewerMismatch => 403
  | .reviewsOnlyForCompleted => 400
  | .clientReviewsOnlyFreelancer => 400
  | .freelancerReviewsOnlyClient => 400
  | .notAuthorizedToReview => 403
  | .duplicateReview => 400
  | .couldNotSaveReview => 500

/-- Decidable equality for endpoint outcomes. -/
instance exceptDecEq {e a : Type} [DecidableEq e] [DecidableEq a] :
    DecidableEq (Except e a) := fun x y =>
  match x, y with
  | .ok v, .ok w =>
    if h : v = w then .isTrue (h ▸ rfl) else .isFalse (by simp [h])
  | .error v, .error w =>
    if h : v = w then .isTrue (h ▸ rfl) else .isFalse (by simp [h])
  | .ok _, .error _ => .isFalse (by simp)
  | .error _, .ok _ => .isFalse (by simp)

/-- HTTP status code of an endpoint outcome (`none` on success). -/
def errCodeOf {α : Type} : Except Err α → Option Nat
  | .error e => some e.code
  | .ok _ => none

/-- `schemas.ProjectCreate` (request body of `POST /projects/`). -/
structure ProjectCreate where
  title : String
  description : String
  budget : Option Amount := none
  deadline : Option DateTs := none
  tags : Option (List String) := none
  status : String
  client_user_id : Uuid
  deriving Repr, DecidableEq

/-- The `Dict[str, Any]` patch body of `PUT /projects/{id}`: one `Option`
field per key of the stored project document (`some v` = key present with
value `v`; budget / deadline / tags / freelancer may be set to null, hence
the nested options), plus `other` for keys that match no document field
(they are merged into the document but invisible to the `Project` view). -/
structure ProjectPatch where
  title : Option String := none
  description : Option String := none
  budget : Option (Option Amount) := none
  deadline : Option (Option DateTs) := none
  tags : Option (Option (List String)) := none
  status : Option String := none
  freelancer_user_id : Option (Option Uuid) := none
  last_updated_date : Option DateTs := none
  client_user_id : Option Uuid := none
  project_id : Option Uuid := none
  creation_date : Option DateTs := none
  other : List String := []
  deriving Repr, DecidableEq

/-- The three `del project_update_data[...]` statements of `update_project`. -/
def stripProtected (p : ProjectPatch) : ProjectPatch :=
  { p with client_user_id := none, project_id := none, creation_date := none }

/-- `if not project_update_data`: the patch dictionary is empty. -/
def ProjectPatch.isEmptyPatch (p : ProjectPatch) : Bool :=
  p.title.isNone && p.description.isNone && p.budget.isNone &&
  p.deadline.isNone && p.tags.isNone && p.status.isNone &&
  p.freelancer_user_id.isNone && p.last_updated_date.isNone &&
  p.client_user_id.isNone && p.project_id.isNone &&
  p.creation_date.isNone && p.other.isEmpty

/-- The Firestore `doc_ref.update(updates)` merge of a patch into a stored
project document, restricted to the keys the `Project` view reads. -/
def applyPatch (pr : Project) (p : ProjectPatch) : Project :=
  { project_id := p.project_id.getD pr.project_id
    client_user_id := p.client_user_id.getD pr.client_user_id
    freelancer_user_id := p.freelancer_user_id.getD pr.freelancer_user_id
    title := p.title.getD pr.title
    description := p.description.getD pr.description
    budget := p.budget.getD pr.budget
    deadline := p.deadline.getD pr.deadline
    tags := p.tags.getD pr.tags
    status := p.status.getD pr.status
    creation_date := p.creation_date.getD pr.creation_date
    last_updated_date := p.last_updated_date.getD pr.last_updated_date }

/-- `projects.create_project` (`POST /projects/`): `uid?` is the decoded
token, `newId` the generated `uuid4`, `now` the creation timestamp. -/
def create_project (uid? : Option Uuid) (pin : ProjectCreate) (newId : Uuid)
    (now : DateTs) (s : St) : Except Err Project × St :=
  match uid? with
  | none => (.error .unauthorized, s)
  | some uid =>
  match lookupDoc s.db.users uid with
  | none => (.error .authUserNotFound, s)
  | some user =>
  if user.role ≠ "client" then (.error .onlyClientsCreateProjects, s)
  else
    let p : Project :=
      { project_id := newId
        client_user_id := user.user_id
        title := pin.title
        description := pin.description
        budget := pin.budget
        deadline := pin.deadline
        tags := pin.tags
        status := pin.status
        creation_date := now
        last_updated_date := now }
    let (ok, ws) := takeW s.ws
    if ok then
      (.ok p, { db := { s.db with projects := saveDoc s.db.projects newId p }, ws })
    else (.error .couldNotCreateProject, { s with ws })

/-- `projects.update_project` (`PUT /projects/{project_id}`). -/
def update_project (uid? : Option Uuid) (project_id : Uuid)
    (patch : ProjectPatch) (s : St) : Except Err Project × St :=
  match uid? with
  | none => (.error .unauthorized, s)
  | some uid =>
  match lookupDoc s.db.users uid with
  | none => (.error .authUserNotFound, s)
  | some user =>
  match lookupDoc s.db.projects project_id with
  | none => (.error .projectNotFound, s)
  | some existing =>
  if existing.client_user_id ≠ user.user_id then
    (.error .notAuthorizedUpdateProject, s)
  else
    let patch := stripProtected patch
    if patch.isEmptyPatch then (.error .noValidFieldsToUpdate, s)
    else
      let (ok, ws) := takeW s.ws
      if ¬ ok then (.error .couldNotUpdateProject, { s with ws })
      else
        let db := { s.db with
          projects := setDoc s.db.projects project_id (fun pr => applyPatch pr patch) }
        match lookupDoc db.projects project_id with
        | none => (.error .projectNotFoundAfterUpdate, { db, ws })
        | some updated => (.ok updated, { db, ws })

/-- `schemas.BidCreate` (request body of `POST /project/{id}/submit-bid`);
`project_id` and `freelancer_user_id` are ignored by the endpoint in favour
of the path and the token. -/
structure BidCreate where
  proposal : String
  amount : Amount
  estimated_completion_time : Option String := none
  project_id : Uuid
  freelancer_user_id : Uuid
  deriving Repr, DecidableEq

/-- `bids.submit_bid_for_project` (`POST /project/{project_id}/submit-bid`). -/
def submit_bid_for_project (uid? : Option Uuid) (project_id : Uuid)
    (bid_in : BidCreate) (newBidId : Uuid) (now : DateTs) (s : St) :
    Except Err Bid × St :=
  match uid? with
  | none => (.error .unauthorized, s)
  | some uid =>
  match lookupDoc s.db.users uid with
  | none => (.error .authUserNotFound, s)
  | some user =>
  if user.role ≠ "freelancer" then (.error .onlyFreelancersBid, s)
  else
  match lookupDoc s.db.projects project_id with
  | none => (.error .projectNotFound, s)
  | some target_project =>
  if target_project.status ≠ "open" then (.error .projectNotOpenForBids, s)
  else
    let existing_bids := queryDocs s.db.bids (fun b => b.project_id = project_id)
    if existing_bids.any (fun b => b.freelancer_user_id = user.user_id) then
      (.error .alreadyBidOnProject, s)
    else
      let bid_to_save : Bid :=
        { bid_id := newBidId
          project_id := project_id
          freelancer_user_id := user.user_id
          proposal := bid_in.proposal
          amount := bid_in.amount
          estimated_completion_time := bid_in.estimated_completion_time
          bid_date := now
          status := "pending" }
      let (ok, ws) := takeW s.ws
      if ok then
        (.ok bid_to_save,
          { db := { s.db with bids := saveDoc s.db.bids newBidId bid_to_save }, ws })
      else (.error .couldNotSubmitBid, { s with ws })

/-- The `updates={"status": "rejected"}` write of the rejection loop. -/
def markRejected (x : Bid) : Bid := { x with status := "rejected" }

/-- The `for bid in other_bids` loop of `accept_bid`: walk the query
snapshot and reject every other pending bid, one (failable, result-ignored)
store write per rejection. -/
def rejectOthers (bidId : Uuid) : List Bid → DB × List Bool → DB × List Bool
  | [], acc => acc
  | b :: rest, acc =>
    rejectOthers bidId rest
      (if b.bid_id ≠ bidId ∧ b.status = "pending" then
        let (ok, ws) := takeW acc.2
        (if ok then
          { acc.1 with bids := setDoc acc.1.bids b.bid_id markRejected }
         else acc.1, ws)
      else acc)

/-- Tail of `accept_bid` after the bid and project updates both succeeded:
reject the other pending bids of the query snapshot, then create the
Contract record. -/
def acceptBidFinish (project_id bid_id contractId : Uuid)
    (target_project : Project) (target_bid : Bid) (now : DateTs)
    (db2 : DB) (ws2 : List Bool) : Except Err String × St :=
  let other_bids := queryDocs db2.bids (fun b => b.project_id = project_id)
  let (db3, ws3) := rejectOthers bid_id other_bids (db2, ws2)
  let contract_to_save : Contract :=
    { contract_id := contractId
      project_id := target_project.project_id
      client_id := target_project.client_user_id
      freelancer_id := target_bid.freelancer_user_id
      terms := "Details as per project description and bid proposal."
      agreed_amount := target_bid.amount
      start_date := now
      end_date := none
      status := "active" }
  let (ok4, ws4) := takeW ws3
  if ¬ ok4 then (.error .failedCreateContract, { db := db3, ws := ws4 })
  else
    (.ok "Bid accepted, project in progress, and contract created.",
      { db := { db3 with
          contracts := saveDoc db3.contracts contractId contract_to_save },
        ws := ws4 })

/-- `bids.accept_bid` (`POST /project/{project_id}/bid/{bid_id}/accept`):
`contractId` is the generated `uuid4`, `now` the `datetime.utcnow()`. -/
def accept_bid (uid? : Option Uuid) (project_id bid_id : Uuid)
    (contractId : Uuid) (now : DateTs) (s : St) : Except Err String × St :=
  match uid? with
  | none => (.error .unauthorized, s)
  | some uid =>
  match lookupDoc s.db.users uid with
  | none => (.error .authUserNotFound, s)
  | some user =>
  match lookupDoc s.db.projects project_id with
  | none => (.error .projectNotFound, s)
  | some target_project =>
  if user.user_id ≠ target_project.client_user_id then
    (.error .notAuthorizedAcceptBids, s)
  else
  match lookupDoc s.db.bids bid_id with
  | none => (.error .bidNotFound, s)
  | some target_bid =>
  if target_bid.project_id ≠ project_id then (.error .bidNotOfThisProject, s)
  else if target_project.status ≠ "open" then (.error .projectNotOpenForAccept, s)
  else if target_bid.status ≠ "pending" then (.error .bidNotPending, s)
  else
    let (ok1, ws1) := takeW s.ws
    if ¬ ok1 then (.error .failedUpdateBidStatus, { s with ws := ws1 })
    else
      let db1 := { s.db with
        bids := setDoc s.db.bids bid_id (fun b => { b with status := "accepted" }) }
      let (ok2, ws2) := takeW ws1
      if ¬ ok2 then
        let (okr, wsr) := takeW ws2
        let dbr :=
          if okr then
            { db1 with
              bids := setDoc db1.bids bid_id (fun b => { b with status := "pending" }) }
          else db1
        (.error .failedUpdateProjectStatus, { db := dbr, ws := wsr })
      else
        let db2 := { db1 with
          projects := setDoc db1.projects project_id
            (fun p => { p with
              status := "in_progress"
              freelancer_user_id := some target_bid.freelancer_user_id }) }
        acceptBidFinish project_id bid_id contractId target_project target_bid now db2 ws2

/-- `schemas.WorkSubmissionCreate` (request body of the submission POST);
`project_id` and `freelancer_id` are overwritten from the path and token. -/
structure WorkSubmissionCreate where
  project_id : Uuid
  freelancer_id : Uuid
  files : Option (List FileRef) := none
  notes : Option String := none
  deriving Repr, DecidableEq

/-- `submissions.submit_work_for_project`
(`POST /projects/{project_id}/submissions/`). -/
def submit_work_for_project (uid? : Option Uuid) (project_id : Uuid)
    (submission_in : WorkSubmissionCreate) (newSubmissionId : Uuid)
    (now : DateTs) (s : St) : Except Err WorkSubmission × St :=
  match uid? with
  | none => (.error .unauthorized, s)
  | some uid =>
  match lookupDoc s.db.users uid with
  | none => (.error .authUserNotFound, s)
  | some user =>
  match lookupDoc s.db.projects project_id with
  | none => (.error .projectNotFound, s)
  | some target_project =>
  match target_project.freelancer_user_id with
  | none => (.error .noAssignedFreelancer, s)
  | some assigned =>
  if user.user_id ≠ assigned then (.error .notAssignedFreelancer, s)
  else if target_project.status ≠ "in_progress" then (.error .projectNotInProgress, s)
  else
    let contracts := queryDocs s.db.contracts (fun c => c.project_id = project_id)
    if ¬ contracts.any (fun c => c.freelancer_id = assigned ∧ c.status = "active") then
      (.error .noActiveContract, s)
    else
      let existing_submissions :=
        queryDocs s.db.submissions (fun sub => sub.project_id = project_id)
      let versions := existing_submissions.filterMap (·.version)
      -- `max(<empty generator>)` raises ValueError when every stored version
      -- is None but submissions exist: an unhandled 500.
      if existing_submissions.isEmpty = false ∧ versions = [] then
        (.error .emptyVersionMax, s)
      else
        let current_version : Int :=
          if existing_submissions.isEmpty then 1
          else (match versions with
                | [] => 0
                | v :: rest => rest.foldl max v) + 1
        let submission_to_save : WorkSubmission :=
          { submission_id := newSubmissionId
            project_id := project_id
            freelancer_id := user.user_id
            files := submission_in.files
            notes := submission_in.notes
            submission_date := now
            version := some current_version }
        let (okS, ws1) := takeW s.ws
        if ¬ okS then (.error .couldNotSaveSubmission, { s with ws := ws1 })
        else
          let db1 := { s.db with
            submissions := saveDoc s.db.submissions newSubmissionId submission_to_save }
          let (okU, ws2) := takeW ws1
          if ¬ okU then (.error .failedSetAwaitingReview, { db := db1, ws := ws2 })
          else
            (.ok submission_to_save,
              { db := { db1 with
                  projects := setDoc db1.projects project_id
                    (fun p => { p with status := "awaiting_review" }) },
                ws := ws2 })

/-- `submissions.approve_submission`
(`POST /projects/{project_id}/submissions/{submission_id}/approve`). -/
def approve_submission (uid? : Option Uuid) (project_id submission_id : Uuid)
    (s : St) : Except Err String × St :=
  match uid? with
  | none => (.error .unauthorized, s)
  | some uid =>
  match lookupDoc s.db.users uid with
  | none => (.error .authUserNotFound, s)
  | some user =>
  match lookupDoc s.db.projects project_id with
  | none => (.error .projectNotFound, s)
  | some target_project =>
  match lookupDoc s.db.submissions submission_id with
  | none => (.error .submissionNotFound, s)
  | some target_submission =>
  if user.user_id ≠ target_project.client_user_id then (.error .onlyOwnerApproves, s)
  else if target_submission.project_id ≠ project_id then
    (.error .submissionNotOfThisProject, s)
  else if target_project.status ≠ "awaiting_review" then
    (.error .projectNotAwaitingReview, s)
  else
    let (okP, ws1) := takeW s.ws
    if ¬ okP then (.error .failedSetCompleted, { s with ws := ws1 })
    else
      let db1 := { s.db with
        projects := setDoc s.db.projects project_id
          (fun p => { p with status := "completed" }) }
      match target_project.freelancer_user_id with
      | none => (.ok "Submission approved. Project marked as completed.",
                 { db := db1, ws := ws1 })
      | some assigned =>
        let contracts := queryDocs db1.contracts (fun c => c.project_id = project_id)
        match contracts.find? (fun c => c.freelancer_id = assigned ∧ c.status = "active") with
        | none => (.ok "Submission approved. Project marked as completed.",
                   { db := db1, ws := ws1 })
        | some active_contract =>
          let (okC, ws2) := takeW ws1
          let db2 :=
            if okC then
              { db1 with
                contracts := setDoc db1.contracts active_contract.contract_id
                  (fun c => { c with status := "completed" }) }
            else db1
          (.ok "Submission approved. Project marked as completed.",
            { db := db2, ws := ws2 })

/-- `amount is None or amount <= 0` on the project budget in
`checkout_project_payment`. -/
def budgetInvalid : Option Amount → Bool
  | none => true
  | some a => a ≤ 0

/-- `payments.checkout_project_payment`
(`POST /payments/checkout/project/{project_id}`). -/
def checkout_project_payment (uid? : Option Uuid) (project_id : Uuid)
    (transactionId : Uuid) (now : DateTs) (s : St) :
    Except Err Transaction × St :=
  match uid? with
  | none => (.error .unauthorized, s)
  | some uid =>
  match lookupDoc s.db.users uid with
  | none => (.error .authUserNotFound, s)
  | some user =>
  match lookupDoc s.db.projects project_id with
  | none => (.error .projectNotFound, s)
  | some target_project =>
  if user.user_id ≠ target_project.client_user_id then (.error .onlyClientPays, s)
  else if target_project.status ≠ "completed" then (.error .projectNotCompleted, s)
  else
  match target_project.freelancer_user_id with
  | none => (.error .noFreelancerToPay, s)
  | some assigned =>
    let existing_transactions :=
      queryDocs s.db.transactions (fun t => t.project_id = some project_id)
    if existing_transactions.any
        (fun t => t.transaction_type = "project_payment" ∧ t.status = "completed") then
      (.error .paymentAlreadyProcessed, s)
    else
      let amountResolved : Option Amount :=
        if budgetInvalid target_project.budget then
          let bids_for_project :=
            queryDocs s.db.bids (fun b => b.project_id = project_id)
          match bids_for_project.find?
              (fun b => b.status = "accepted" ∧ b.freelancer_user_id = assigned) with
          | some accepted_bid =>
            if 0 < accepted_bid.amount then some accepted_bid.amount else none
          | none => none
        else target_project.budget
      match amountResolved with
      | none => (.error .budgetInvalidNoAcceptedBid, s)
      | some amount =>
        let transaction_to_save : Transaction :=
          { transaction_id := transactionId
            project_id := some project_id
            payer_user_id := some user.user_id
            payee_user_id := assigned
            amount := amount
            currency := "USD"
            transaction_type := "project_payment"
            status := "completed"
            transaction_date := now }
        let (ok, ws) := takeW s.ws
        if ok then
          (.ok transaction_to_save,
            { db := { s.db with
                transactions := saveDoc s.db.transactions transactionId transaction_to_save },
              ws })
        else (.error .couldNotSaveTransaction, { s with ws })

/-- `schemas.ReviewCreate` (request body of `POST /reviews/`). -/
structure ReviewCreate where
  rating : Int
  comment : Option String := none
  project_id : Uuid
  reviewer_user_id : Uuid
  reviewee_user_id : Uuid
  deriving Repr, DecidableEq

/-- Python `round(x, 2)` as used for the freelancer average rating (half
rounds away from the exact tie behaviour of floats; the averaged value is
not load-bearing for any claim). -/
def round2 (q : Amount) : Amount := (round (q * 100) : Int) / 100

/-- Tail of `reviews.submit_review` after the reviewer/reviewee pairing
checks: duplicate-review check, save, and (for a client reviewer) the
best-effort freelancer average-rating update. -/
def submitReviewRest (review_in : ReviewCreate) (newReviewId : Uuid)
    (now : DateTs) (s : St) (target_project : Project)
    (is_reviewer_client : Bool) : Except Err Review × St :=
  let existing_reviews :=
    queryDocs s.db.reviews (fun r => r.project_id = review_in.project_id)
  if existing_reviews.any
      (fun r => r.reviewer_user_id = review_in.reviewer_user_id ∧
                r.reviewee_user_id = review_in.reviewee_user_id) then
    (.error .duplicateReview, s)
  else
    let review_to_save : Review :=
      { review_id := newReviewId
        project_id := review_in.project_id
        reviewer_user_id := review_in.reviewer_user_id
        reviewee_user_id := review_in.reviewee_user_id
        rating := review_in.rating
        comment := review_in.comment
        review_date := now }
    let (okS, ws1) := takeW s.ws
    if ¬ okS then (.error .couldNotSaveReview, { s with ws := ws1 })
    else
      let db1 := { s.db with
        reviews := saveDoc s.db.reviews newReviewId review_to_save }
      if is_reviewer_client ∧ target_project.freelancer_user_id.isSome then
        match target_project.freelancer_user_id with
        | none => (.ok review_to_save, { db := db1, ws := ws1 })
        | some freelancer_to_update =>
          let all_freelancer_reviews :=
            queryDocs db1.reviews (fun r => r.reviewee_user_id = freelancer_to_update)
          if all_freelancer_reviews.isEmpty then
            (.ok review_to_save, { db := db1, ws := ws1 })
          else
            let total_rating : Int :=
              (all_freelancer_reviews.map (·.rating)).sum
            let num_reviews : Nat := all_freelancer_reviews.length
            let new_average_rating : Amount :=
              round2 ((total_rating : Amount) / (num_reviews : Amount))
            let (okU, ws2) := takeW ws1
            let db2 :=
              if okU then
                { db1 with
                  freelancer_profiles := setDoc db1.freelancer_profiles
                    freelancer_to_update
                    (fun fp => { fp with average_rating := some new_average_rating }) }
              else db1
            (.ok review_to_save, { db := db2, ws := ws2 })
      else (.ok review_to_save, { db := db1, ws := ws1 })

/-- `reviews.submit_review` (`POST /reviews/`). -/
def submit_review (uid? : Option Uuid) (review_in : ReviewCreate)
    (newReviewId : Uuid) (now : DateTs) (s : St) : Except Err Review × St :=
  match uid? with
  | none => (.error .unauthorized, s)
  | some uid =>
  match lookupDoc s.db.users uid with
  | none => (.error .authUserNotFound, s)
  | some user =>
  if review_in.reviewer_user_id ≠ user.user_id then (.error .reviewerMismatch, s)
  else
  match lookupDoc s.db.projects review_in.project_id with
  | none => (.error .projectNotFound, s)
  | some target_project =>
  if target_project.status ≠ "completed" then (.error .reviewsOnlyForCompleted, s)
  else
    let is_reviewer_client := user.user_id = target_project.client_user_id
    let is_reviewer_freelancer :=
      target_project.freelancer_user_id.isSome ∧
        some user.user_id = target_project.freelancer_user_id
    if is_reviewer_client then
      if target_project.freelancer_user_id ≠ some review_in.reviewee_user_id then
        (.error .clientReviewsOnlyFreelancer, s)
      else submitReviewRest review_in newReviewId now s target_project true
    else if is_reviewer_freelancer then
      if review_in.reviewee_user_id ≠ target_project.client_user_id then
        (.error .freelancerReviewsOnlyClient, s)
      else submitReviewRest review_in newReviewId now s target_project false
    else (.error .notAuthorizedToReview, s)

/-! Concrete scenario data (spec §8: client C = 1, freelancers F1 = 2 and
F2 = 3, project P = 10 with budget 100, bids B1 = 20 (amount 90) and
B2 = 21 (amount 80)). -/

def clientC : User := { user_id := 1, username := "c", role := "client" }

def freelancerF1 : User := { user_id := 2, username := "f1", role := "freelancer" }

def freelancerF2 : User := { user_id := 3, username := "f2", role := "freelancer" }

def baseUsers : List (Uuid × User) := [(1, clientC), (2, freelancerF1), (3, freelancerF2)]

/-- Project P in a given lifecycle position. -/
def mkProject (status : String) (fl : Option Uuid := none)
    (budget : Option Amount := some 100) : Project :=
  { project_id := 10
    client_user_id := 1
    freelancer_user_id := fl
    title := "T"
    description := "D"
    budget := budget
    status := status
    creation_date := 5
    last_updated_date := 5 }

/-- A bid on project P. -/
def mkBid (id : Uuid) (fl : Uuid) (amount : Amount) (status : String) : Bid :=
  { bid_id := id
    project_id := 10
    freelancer_user_id := fl
    proposal := "p"
    amount := amount
    bid_date := 6
    status := status }

/-- The open project P with both pending bids (pre-`accept_bid` state). -/
def dbOpenTwoBids : DB :=
  { users := baseUsers
    projects := [(10, mkProject "open")]
    bids := [(20, mkBid 20 2 90 "pending"), (21, mkBid 21 3 80 "pending")] }


/-! ### Store lemmas -/

theorem lookup_setDoc {α : Type} (l : List (Uuid × α)) (k q : Uuid) (f : α → α) :
    lookupDoc (setDoc l k f) q =
      if q = k then (lookupDoc l q).map f else lookupDoc l q := by
  induction l with
  | nil => simp [lookupDoc, setDoc]
  | cons e t ih =>
    obtain ⟨a, b⟩ := e
    by_cases hak : a = k
    · subst hak
      by_cases hqa : q = a
      · subst hqa
        simp [lookupDoc, setDoc]
      · simp [lookupDoc, setDoc, hqa, Ne.symm hqa, ih]
    · by_cases hqa : q = a
      · subst hqa
        simp [lookupDoc, setDoc, hak, Ne.symm hak, ih]
      · simp [lookupDoc, setDoc, hqa, Ne.symm hqa, hak, ih]

theorem lookup_of_mem_nodup {α : Type} {l : List (Uuid × α)} {k : Uuid} {v : α}
    (hnd : (l.map Prod.fst).Nodup) (hmem : (k, v) ∈ l) :
    lookupDoc l k = some v := by
  induction l with
  | nil => cases hmem
  | cons e t ih =>
    obtain ⟨a, b⟩ := e
    simp only [List.map_cons, List.nodup_cons] at hnd
    rcases List.mem_cons.mp hmem with h | h
    · cases h
      simp [lookupDoc]
    · have hka : a ≠ k := by
        rintro rfl
        exact hnd.1 (List.mem_map.mpr ⟨(a, v), h, rfl⟩)
      simpa [lookupDoc, hka] using ih hnd.2 h

theorem lookup_append_fresh {α : Type} (l : List (Uuid × α))
    (k : Uuid) (v : α) (h : l.any (fun e => e.1 = k) = false) :
    lookupDoc (l ++ [(k, v)]) k = some v := by
  induction l with
  | nil => simp [lookupDoc]
  | cons e t ih =>
    simp only [List.any_cons, Bool.or_eq_false_iff] at h
    have h1 : ¬ (e.1 = k) := by simpa using h.1
    simpa [lookupDoc, h1] using ih h.2

theorem saveDoc_fresh {α : Type} (l : List (Uuid × α)) (k : Uuid) (v : α)
    (h : l.any (fun e => e.1 = k) = false) :
    saveDoc l k v = l ++ [(k, v)] := by
  simp [saveDoc, h]

theorem markRejected_comp : markRejected ∘ markRejected = markRejected := by
  funext x
  rfl

theorem rejectOthers_projects (bidId : Uuid) (snap : List Bid) :
    ∀ acc : DB × List Bool, ((rejectOthers bidId snap acc).1).projects = acc.1.projects := by
  induction snap with
  | nil => intro acc; rfl
  | cons b rest ih =>
    intro acc
    rw [rejectOthers, ih]
    split
    · rcases htw : takeW acc.2 with ⟨ok, ws⟩
      simp only [htw]
      split <;> rfl
    · rfl

theorem rejectOthers_contracts (bidId : Uuid) (snap : List Bid) :
    ∀ acc : DB × List Bool, ((rejectOthers bidId snap acc).1).contracts = acc.1.contracts := by
  induction snap with
  | nil => intro acc; rfl
  | cons b rest ih =>
    intro acc
    rw [rejectOthers, ih]
    split
    · rcases htw : takeW acc.2 with ⟨ok, ws⟩
      simp only [htw]
      split <;> rfl
    · rfl

theorem rejectOthers_lookup_bids (bidId : Uuid) (snap : List Bid) :
    ∀ (db : DB) (k : Uuid),
      lookupDoc ((rejectOthers bidId snap (db, [])).1).bids k =
        if snap.any (fun x => x.bid_id = k ∧ x.bid_id ≠ bidId ∧ x.status = "pending") then
          (lookupDoc db.bids k).map markRejected
        else lookupDoc db.bids k := by
  induction snap with
  | nil =>
    intro db k
    simp [rejectOthers]
  | cons b rest ih =>
    intro db k
    by_cases hc : b.bid_id ≠ bidId ∧ b.status = "pending"
    · have hacc : rejectOthers bidId (b :: rest) (db, []) =
          rejectOthers bidId rest
            ({ db with bids := setDoc db.bids b.bid_id markRejected }, []) := by
        rw [rejectOthers, if_pos hc]
        rfl
      rw [hacc, ih]
      by_cases hk : b.bid_id = k
      · have hany : ((b :: rest).any
            fun x => x.bid_id = k ∧ x.bid_id ≠ bidId ∧ x.status = "pending") = true := by
          simp only [List.any_cons, Bool.or_eq_true, decide_eq_true_eq]
          exact Or.inl ⟨hk, hc.1, hc.2⟩
        rw [if_pos hany]
        rw [lookup_setDoc, if_pos hk.symm]
        split
        · rw [Option.map_map, markRejected_comp]
        · rfl
      · have hP : (decide (b.bid_id = k ∧ b.bid_id ≠ bidId ∧ b.status = "pending")) = false := by
          simp only [decide_eq_false_iff_not]
          intro h
          exact hk h.1
        have hsame : ((b :: rest).any
            fun x => x.bid_id = k ∧ x.bid_id ≠ bidId ∧ x.status = "pending") =
            (rest.any fun x => x.bid_id = k ∧ x.bid_id ≠ bidId ∧ x.status = "pending") := by
          simp only [List.any_cons, hP, Bool.false_or]
        rw [hsame, lookup_setDoc, if_neg (show ¬ (k = b.bid_id) from fun h => hk h.symm)]
    · have hacc : rejectOthers bidId (b :: rest) (db, []) = rejectOthers bidId rest (db, []) := by
        rw [rejectOthers, if_neg hc]
      rw [hacc, ih]
      have hP : (decide (b.bid_id = k ∧ b.bid_id ≠ bidId ∧ b.status = "pending")) = false := by
        simp only [decide_eq_false_iff_not]
        intro h
        exact hc ⟨h.2.1, h.2.2⟩
      have hsame : ((b :: rest).any
          fun x => x.bid_id = k ∧ x.bid_id ≠ bidId ∧ x.status = "pending") =
          (rest.any fun x => x.bid_id = k ∧ x.bid_id ≠ bidId ∧ x.status = "pending") := by
        simp only [List.any_cons, hP, Bool.false_or]
      rw [hsame]

theorem mem_setDoc_of_ne {α : Type} {l : List (Uuid × α)} {k : Uuid} {v : α}
    (hmem : (k, v) ∈ l) (k0 : Uuid) (f : α → α) (hne : k ≠ k0) :
    (k, v) ∈ setDoc l k0 f := by
  induction l with
  | nil => cases hmem
  | cons e t ih =>
    rcases List.mem_cons.mp hmem with h | h
    · subst h
      simp [setDoc, hne]
    · simp only [setDoc, List.mem_cons]
      exact Or.inr (ih h)

/-- C8: calling `accept_bid` on a bid that is already `accepted` (whether or
not the project is still `open`) passes the ownership checks but fails one of
the two state validations with HTTP 400, before any store write: the bid,
project, contract and all other state are unchanged. -/
theorem acceptBid_second_call_rejected
    (s : St) (uid pid bidId cid now : Nat) (user : User) (project : Project) (bid : Bid)
    (huser : lookupDoc s.db.users uid = some user)
    (hproj : lookupDoc s.db.projects pid = some project)
    (hown : user.user_id = project.client_user_id)
    (hbid : lookupDoc s.db.bids bidId = some bid)
    (hbp : bid.project_id = pid)
    (hacc : bid.status = "accepted") :
    errCodeOf (accept_bid (some uid) pid bidId cid now s).1 = some 400 ∧
    (accept_bid (some uid) pid bidId cid now s).2 = s := by
  by_cases hop : project.status = "open" <;>
    simp [accept_bid, huser, hproj, hown, hbid, hbp, hacc, hop, errCodeOf, Err.code]

/-- Witness for C8 at the concrete second-call state: project 10 is
`in_progress` with freelancer 2 and bid 20 is `accepted`. -/
theorem acceptBid_second_call_rejected_witness :
    errCodeOf (accept_bid (some 1) 10 20 31 9
      { db := { users := baseUsers
                projects := [(10, mkProject "in_progress" (some 2))]
                bids := [(20, mkBid 20 2 90 "accepted")] } }).1 = some 400 ∧
    (accept_bid (some 1) 10 20 31 9
      { db := { users := baseUsers
                projects := [(10, mkProject "in_progress" (some 2))]
                bids := [(20, mkBid 20 2 90 "accepted")] } }).2 =
      { db := { users := baseUsers
                projects := [(10, mkProject "in_progress" (some 2))]
                bids := [(20, mkBid 20 2 90 "accepted")] } } :=
  acceptBid_second_call_rejected _ _ _ _ _ _ clientC
    (mkProject "in_progress" (some 2)) (mkBid 20 2 90 "accepted")
    (by decide) (by decide) (by decide) (by decide) (by decide) (by decide)

/-- C7: when a completed `project_payment` transaction already exists for the
project, a further checkout by the owning client on the completed project
fails with the duplicate-payment error (HTTP 400, the spec's Conflict class)
and leaves the store untouched — no transaction is created. -/
theorem checkout_duplicate_payment_conflict
    (s : St) (uid pid tid now : Nat) (user : User) (project : Project) (f : Uuid)
    (huser : lookupDoc s.db.users uid = some user)
    (hproj : lookupDoc s.db.projects pid = some project)
    (hown : user.user_id = project.client_user_id)
    (hcomp : project.status = "completed")
    (hfl : project.freelancer_user_id = some f)
    (hdup : (queryDocs s.db.transactions (fun t => t.project_id = some pid)).any
        (fun t => t.transaction_type = "project_payment" ∧ t.status = "completed") = true) :
    (checkout_project_payment (some uid) pid tid now s).1 =
      .error .paymentAlreadyProcessed ∧
    Err.paymentAlreadyProcessed.code = 400 ∧
    (checkout_project_payment (some uid) pid tid now s).2 = s := by
  have hdup2 : ∃ x ∈ queryDocs s.db.transactions (fun t => t.project_id = some pid),
      x.transaction_type = "project_payment" ∧ x.status = "completed" := by
    simpa using hdup
  simp [checkout_project_payment, huser, hproj, hown, hcomp, hfl, hdup2, Err.code]

/-- Witness for C7: the spec §8 post-payment state (transaction 50 is the
existing completed `project_payment` for project 10); the second checkout
fails with the 400 duplicate-payment error and the state is unchanged. -/
theorem checkout_duplicate_payment_conflict_witness :
    (checkout_project_payment (some 1) 10 51 12
      { db := { users := baseUsers
                projects := [(10, mkProject "completed" (some 2))]
                bids := [(20, mkBid 20 2 90 "accepted")]
                transactions := [(50,
                  { transaction_id := 50, project_id := some 10,
                    payer_user_id := some 1, payee_user_id := 2, amount := 100,
                    transaction_type := "project_payment", status := "completed",
                    transaction_date := 11 })] } }).1 =
      .error .paymentAlreadyProcessed ∧
    Err.paymentAlreadyProcessed.code = 400 ∧
    (checkout_project_payment (some 1) 10 51 12
      { db := { users := baseUsers
                projects := [(10, mkProject "completed" (some 2))]
                bids := [(20, mkBid 20 2 90 "accepted")]
                transactions := [(50,
                  { transaction_id := 50, project_id := some 10,
                    payer_user_id := some 1, payee_user_id := 2, amount := 100,
                    transaction_type := "project_payment", status := "completed",
                    transaction_date := 11 })] } }).2 =
      { db := { users := baseUsers
                projects := [(10, mkProject "completed" (some 2))]
                bids := [(20, mkBid 20 2 90 "accepted")]
                transactions := [(50,
                  { transaction_id := 50, project_id := some 10,
                    payer_user_id := some 1, payee_user_id := 2, amount := 100,
                    transaction_type := "project_payment", status := "completed",
                    transaction_date := 11 })] } } :=
  checkout_duplicate_payment_conflict _ _ _ _ _ clientC (mkProject "completed" (some 2)) 2
    (by decide) (by decide) (by decide) (by decide) (by decide) (by decide)

/-- C10: a successful `update_project` call never changes the stored
project's `client_user_id`, `project_id` or `creation_date`, whatever keys
the caller's patch dictionary contains — the three keys are deleted from the
patch before the store merge. -/
theorem updateProject_protected_fields
    (uid? : Option Uuid) (pid : Uuid) (patch : ProjectPatch) (s : St)
    (v : Project) (s' : St)
    (hok : update_project uid? pid patch s = (Except.ok v, s'))
    (p p' : Project)
    (hp : lookupDoc s.db.projects pid = some p)
    (hp' : lookupDoc s'.db.projects pid = some p') :
    p'.client_user_id = p.client_user_id ∧ p'.project_id = p.project_id ∧
      p'.creation_date = p.creation_date := by
  cases uid? with
  | none => simp [update_project] at hok
  | some uid =>
  cases huser : lookupDoc s.db.users uid with
  | none => simp [update_project, huser] at hok
  | some user =>
  by_cases hown : p.client_user_id ≠ user.user_id
  · simp [update_project, huser, hp, hown] at hok
  · by_cases hemp : (stripProtected patch).isEmptyPatch
    · simp [update_project, huser, hp, hown, hemp] at hok
    · rcases htw : takeW s.ws with ⟨ok, ws⟩
      cases ok with
      | false => simp [update_project, huser, hp, hown, hemp, htw] at hok
      | true =>
        have hset : lookupDoc
            (setDoc s.db.projects pid (fun pr => applyPatch pr (stripProtected patch))) pid =
            some (applyPatch p (stripProtected patch)) := by
          rw [lookup_setDoc, if_pos rfl, hp]
          rfl
        simp [update_project, huser, hp, hown, hemp, htw, hset] at hok
        rcases hok with ⟨hv, hs2⟩
        subst hs2
        rw [hset] at hp'
        cases hp'
        simp [applyPatch, stripProtected]

/-- Witness for C10: a patch that tries to overwrite all three protected
keys (and the title) of project 10 leaves `client_user_id`, `project_id` and
`creation_date` unchanged. -/
theorem updateProject_protected_fields_witness :
    ({ mkProject "in_progress" (some 2) with title := "X" } : Project).client_user_id =
        (mkProject "in_progress" (some 2)).client_user_id ∧
      ({ mkProject "in_progress" (some 2) with title := "X" } : Project).project_id =
        (mkProject "in_progress" (some 2)).project_id ∧
      ({ mkProject "in_progress" (some 2) with title := "X" } : Project).creation_date =
        (mkProject "in_progress" (some 2)).creation_date :=
  updateProject_protected_fields (some 1) 10
    { title := some "X", client_user_id := some 99, project_id := some 99,
      creation_date := some 99 }
    { db := { users := baseUsers, projects := [(10, mkProject "in_progress" (some 2))] } }
    { mkProject "in_progress" (some 2) with title := "X" }
    { db := { users := baseUsers,
              projects := [(10, { mkProject "in_progress" (some 2) with title := "X" })] } }
    (by rfl)
    (mkProject "in_progress" (some 2))
    { mkProject "in_progress" (some 2) with title := "X" }
    (by decide) (by decide)

theorem acceptBidFinish_projects (pid bidId cid : Uuid) (tp : Project) (tb : Bid)
    (now : DateTs) (db2 : DB) (ws2 : List Bool) :
    (acceptBidFinish pid bidId cid tp tb now db2 ws2).2.db.projects = db2.projects := by
  unfold acceptBidFinish
  rcases hro : rejectOthers bidId (queryDocs db2.bids fun b => b.project_id = pid) (db2, ws2)
    with ⟨db3, ws3⟩
  have h3 : db3.projects = db2.projects := by
    have h := rejectOthers_projects bidId
      (queryDocs db2.bids fun b => b.project_id = pid) (db2, ws2)
    rw [hro] at h
    exact h
  simp only [hro]
  rcases htw : takeW ws3 with ⟨ok4, ws4⟩
  simp only [htw]
  split <;> exact h3

theorem accept_bid_projects_cases (uid? : Option Uuid) (pid bidId cid now : Nat) (s : St) :
    (accept_bid uid? pid bidId cid now s).2.db.projects = s.db.projects ∨
    (∃ tp tb, lookupDoc s.db.projects pid = some tp ∧
      lookupDoc s.db.bids bidId = some tb ∧ tp.status = "open" ∧
      (accept_bid uid? pid bidId cid now s).2.db.projects =
        setDoc s.db.projects pid
          (fun p => { p with
            status := "in_progress"
            freelancer_user_id := some tb.freelancer_user_id })) := by
  unfold accept_bid
  repeat' split
  all_goals try (left; rfl)
  rename_i uidq uid xu user hu xp tp htp hown xb tb htb hbp hopen hpend x1 ok1 ws1 htw1 hok1 x2 ok2 ws2 htw2 hok2
  right
  refine ⟨tp, tb, htp, htb, not_ne_iff.mp hopen, ?_⟩
  simp only [acceptBidFinish_projects]

theorem submit_work_projects_cases (uid? : Option Uuid) (pid : Uuid)
    (subIn : WorkSubmissionCreate) (sid now : Nat) (s : St) :
    (submit_work_for_project uid? pid subIn sid now s).2.db.projects = s.db.projects ∨
    (∃ tp, lookupDoc s.db.projects pid = some tp ∧ tp.status = "in_progress" ∧
      (submit_work_for_project uid? pid subIn sid now s).2.db.projects =
        setDoc s.db.projects pid (fun p => { p with status := "awaiting_review" })) := by
  unfold submit_work_for_project
  repeat' first
    | (left; rfl)
    | split
    | simp only []
  all_goals right
  all_goals exact ⟨_, by assumption, not_ne_iff.mp (by assumption), by trivial⟩

theorem approve_submission_projects_cases (uid? : Option Uuid)
    (pid sid : Uuid) (s : St) :
    (approve_submission uid? pid sid s).2.db.projects = s.db.projects ∨
    (∃ tp, lookupDoc s.db.projects pid = some tp ∧ tp.status = "awaiting_review" ∧
      (approve_submission uid? pid sid s).2.db.projects =
        setDoc s.db.projects pid (fun p => { p with status := "completed" })) := by
  unfold approve_submission
  repeat' first
    | (left; rfl)
    | split
    | simp only []
  all_goals right
  all_goals exact ⟨_, by assumption, not_ne_iff.mp (by assumption), by trivial⟩

/-- One step (or stay) forward along the project lifecycle chain
`open → in_progress → awaiting_review → completed`. -/
def statusStep (a b : String) : Prop :=
  b = a ∨ (a = "open" ∧ b = "in_progress") ∨
    (a = "in_progress" ∧ b = "awaiting_review") ∨
    (a = "awaiting_review" ∧ b = "completed")

/-- C1 (amended): the three workflow endpoints — `accept_bid`,
`submit_work_for_project`, `approve_submission` — only move any stored
project's observable status forward along the chain (or leave it unchanged);
the original claim fails for `update_project`, which applies a
caller-supplied `status` verbatim (see the counterexample). -/
theorem workflow_endpoints_only_advance_project_status (s : St) (q : Uuid) :
    (∀ (uid? : Option Uuid) (pid bidId cid now : Nat) (p p' : Project),
      lookupDoc s.db.projects q = some p →
      lookupDoc (accept_bid uid? pid bidId cid now s).2.db.projects q = some p' →
      statusStep p.status p'.status) ∧
    (∀ (uid? : Option Uuid) (pid : Uuid) (subIn : WorkSubmissionCreate)
        (sid now : Nat) (p p' : Project),
      lookupDoc s.db.projects q = some p →
      lookupDoc (submit_work_for_project uid? pid subIn sid now s).2.db.projects q = some p' →
      statusStep p.status p'.status) ∧
    (∀ (uid? : Option Uuid) (pid sid : Uuid) (p p' : Project),
      lookupDoc s.db.projects q = some p →
      lookupDoc (approve_submission uid? pid sid s).2.db.projects q = some p' →
      statusStep p.status p'.status) := by
  refine ⟨?_, ?_, ?_⟩
  · intro uid? pid bidId cid now p p' hp hp'
    rcases accept_bid_projects_cases uid? pid bidId cid now s with heq | ⟨tp, tb, htp, htb, hstat, heq⟩
    · rw [heq, hp] at hp'
      cases hp'
      exact Or.inl rfl
    · rw [heq, lookup_setDoc] at hp'
      by_cases hq : q = pid
      · subst hq
        rw [htp] at hp
        cases hp
        rw [if_pos rfl, htp] at hp'
        cases hp'
        exact Or.inr (Or.inl ⟨hstat, rfl⟩)
      · rw [if_neg hq, hp] at hp'
        cases hp'
        exact Or.inl rfl
  · intro uid? pid subIn sid now p p' hp hp'
    rcases submit_work_projects_cases uid? pid subIn sid now s with heq | ⟨tp, htp, hstat, heq⟩
    · rw [heq, hp] at hp'
      cases hp'
      exact Or.inl rfl
    · rw [heq, lookup_setDoc] at hp'
      by_cases hq : q = pid
      · subst hq
        rw [htp] at hp
        cases hp
        rw [if_pos rfl, htp] at hp'
        cases hp'
        exact Or.inr (Or.inr (Or.inl ⟨hstat, rfl⟩))
      · rw [if_neg hq, hp] at hp'
        cases hp'
        exact Or.inl rfl
  · intro uid? pid sid p p' hp hp'
    rcases approve_submission_projects_cases uid? pid sid s with heq | ⟨tp, htp, hstat, heq⟩
    · rw [heq, hp] at hp'
      cases hp'
      exact Or.inl rfl
    · rw [heq, lookup_setDoc] at hp'
      by_cases hq : q = pid
      · subst hq
        rw [htp] at hp
        cases hp
        rw [if_pos rfl, htp] at hp'
        cases hp'
        exact Or.inr (Or.inr (Or.inr ⟨hstat, rfl⟩))
      · rw [if_neg hq, hp] at hp'
        cases hp'
        exact Or.inl rfl

/-- Witness for the amended C1: the §8 `accept_bid` call moves project 10
from `open` one step forward to `in_progress`. -/
theorem workflow_endpoints_only_advance_project_status_witness :
    statusStep (mkProject "open").status
      ({ mkProject "open" with
          status := "in_progress"
          freelancer_user_id := some 2 } : Project).status :=
  (workflow_endpoints_only_advance_project_status { db := dbOpenTwoBids } 10).1
    (some 1) 10 20 30 7 (mkProject "open")
    { mkProject "open" with status := "in_progress", freelancer_user_id := some 2 }
    (by decide) (by decide)

/-- Counterexample to C1 as stated: project 10 is stored `in_progress`, yet
the owning client's `update_project` call with patch `{"status": "open"}`
succeeds and regresses the stored status to the earlier chain state `open` —
`update_project` deletes only `client_user_id` / `project_id` /
`creation_date` from the patch, not `status`. -/
theorem updateProject_status_regression :
    (lookupDoc ({ db := { users := baseUsers
                          projects := [(10, mkProject "in_progress" (some 2))] } } : St).db.projects
        10).map (fun p => p.status) = some "in_progress" ∧
    (update_project (some 1) 10 { status := some "open" }
      { db := { users := baseUsers
                projects := [(10, mkProject "in_progress" (some 2))] } }).1.isOk = true ∧
    (lookupDoc (update_project (some 1) 10 { status := some "open" }
        { db := { users := baseUsers
                  projects := [(10, mkProject "in_progress" (some 2))] } }).2.db.projects
        10).map (fun p => p.status) = some "open" := by
  decide

/-- Counterexample to C4 as stated: freelancer 2's only bid on the open
project 10 is `withdrawn` (a terminal state), yet a new `submit_bid` by
freelancer 2 still fails with the duplicate-bid error instead of succeeding
— the duplicate check matches any prior bid, whatever its status. -/
theorem submitBid_blocked_by_withdrawn_bid :
    (lookupDoc ({ users := baseUsers
                  projects := [(10, mkProject "open")]
                  bids := [(20, mkBid 20 2 90 "withdrawn")] } : DB).bids 20).map
        (fun b => b.status) = some "withdrawn" ∧
    (submit_bid_for_project (some 2) 10
      { proposal := "q", amount := 85, project_id := 10, freelancer_user_id := 2 } 22 8
      { db := { users := baseUsers
                projects := [(10, mkProject "open")]
                bids := [(20, mkBid 20 2 90 "withdrawn")] } }).1 =
      .error .alreadyBidOnProject := by
  decide

/-- C4 (amended): on an existing open project, a freelancer's `submit_bid`
fails with the duplicate-bid error exactly when the store holds any prior
bid by that freelancer on the project, regardless of that bid's status
(withdrawn and rejected bids block too); when the freelancer has no prior
bid at all and the write succeeds, a new Bid with status `pending` is
created. -/
theorem submitBid_duplicate_check_ignores_status
    (s : St) (uid pid newId now : Nat) (bidIn : BidCreate)
    (user : User) (project : Project)
    (huser : lookupDoc s.db.users uid = some user)
    (hrole : user.role = "freelancer")
    (hproj : lookupDoc s.db.projects pid = some project)
    (hopen : project.status = "open") :
    ((∃ b ∈ queryDocs s.db.bids (fun b => b.project_id = pid),
        b.freelancer_user_id = user.user_id) →
      (submit_bid_for_project (some uid) pid bidIn newId now s).1 =
        .error .alreadyBidOnProject ∧
      (submit_bid_for_project (some uid) pid bidIn newId now s).2 = s) ∧
    ((¬ ∃ b ∈ queryDocs s.db.bids (fun b => b.project_id = pid),
        b.freelancer_user_id = user.user_id) → s.ws = [] →
      (submit_bid_for_project (some uid) pid bidIn newId now s).1 =
        .ok { bid_id := newId
              project_id := pid
              freelancer_user_id := user.user_id
              proposal := bidIn.proposal
              amount := bidIn.amount
              estimated_completion_time := bidIn.estimated_completion_time
              bid_date := now
              status := "pending" } ∧
      (submit_bid_for_project (some uid) pid bidIn newId now s).2.db.bids =
        saveDoc s.db.bids newId
          { bid_id := newId
            project_id := pid
            freelancer_user_id := user.user_id
            proposal := bidIn.proposal
            amount := bidIn.amount
            estimated_completion_time := bidIn.estimated_completion_time
            bid_date := now
            status := "pending" }) := by
  constructor
  · intro hdup
    simp [submit_bid_for_project, huser, hrole, hproj, hopen, hdup]
  · intro hnodup hws
    simp [submit_bid_for_project, huser, hrole, hproj, hopen, hnodup, hws, takeW]

/-- Witness for the amended C4: freelancer 2 has no prior bid on open
project 10; `submit_bid` succeeds and stores a pending bid 22. -/
theorem submitBid_duplicate_check_ignores_status_witness :
    (submit_bid_for_project (some 2) 10
      { proposal := "q", amount := 85, project_id := 10, freelancer_user_id := 2 } 22 8
      { db := { users := baseUsers, projects := [(10, mkProject "open")] } }).1 =
      .ok { bid_id := 22, project_id := 10, freelancer_user_id := 2, proposal := "q",
            amount := 85, estimated_completion_time := none, bid_date := 8,
            status := "pending" } ∧
    (submit_bid_for_project (some 2) 10
      { proposal := "q", amount := 85, project_id := 10, freelancer_user_id := 2 } 22 8
      { db := { users := baseUsers, projects := [(10, mkProject "open")] } }).2.db.bids =
      saveDoc [] 22
        { bid_id := 22, project_id := 10, freelancer_user_id := 2, proposal := "q",
          amount := 85, estimated_completion_time := none, bid_date := 8,
          status := "pending" } :=
  (submitBid_duplicate_check_ignores_status _ _ _ _ _ _ freelancerF1 (mkProject "open")
    (by decide) (by decide) (by decide) (by decide)).2 (by decide) rfl

/-- Counterexample to C9 as stated: client 1 reviews freelancer 2 on the
completed project 10 with rating 6 — outside 1..5 — and `submit_review`
accepts the request and stores the review: no rating-range check exists
(the `1-5` range is only a comment on `ReviewBase.rating`). -/
theorem submitReview_rating_six_stored :
    ¬ (1 ≤ (6 : Int) ∧ (6 : Int) ≤ 5) ∧
    (submit_review (some 1)
      { rating := 6, project_id := 10, reviewer_user_id := 1, reviewee_user_id := 2 } 60 12
      { db := { users := baseUsers
                projects := [(10, mkProject "completed" (some 2))] } }).1 =
      .ok { review_id := 60, project_id := 10, reviewer_user_id := 1,
            reviewee_user_id := 2, rating := 6, comment := none, review_date := 12 } ∧
    (lookupDoc (submit_review (some 1)
      { rating := 6, project_id := 10, reviewer_user_id := 1, reviewee_user_id := 2 } 60 12
      { db := { users := baseUsers
                projects := [(10, mkProject "completed" (some 2))] } }).2.db.reviews
        60).map (fun r => r.rating) = some 6 := by
  decide

/-- C9 (amended): `submit_review` validates the reviewer, the project's
completed status, the reviewer/reviewee pairing and duplicates, but never
the rating: under those preconditions it accepts and stores a review with
any integer rating whatsoever. -/
theorem submitReview_accepts_any_rating
    (s : St) (uid rid now : Nat) (rin : ReviewCreate)
    (user : User) (project : Project)
    (huser : lookupDoc s.db.users uid = some user)
    (hrev : rin.reviewer_user_id = user.user_id)
    (hproj : lookupDoc s.db.projects rin.project_id = some project)
    (hcomp : project.status = "completed")
    (hnotclient : user.user_id ≠ project.client_user_id)
    (hfl : project.freelancer_user_id = some user.user_id)
    (hee : rin.reviewee_user_id = project.client_user_id)
    (hnodup : (queryDocs s.db.reviews (fun r => r.project_id = rin.project_id)).any
        (fun r => r.reviewer_user_id = rin.reviewer_user_id ∧
          r.reviewee_user_id = rin.reviewee_user_id) = false)
    (hws : s.ws = []) :
    (submit_review (some uid) rin rid now s).1 =
      .ok { review_id := rid
            project_id := rin.project_id
            reviewer_user_id := rin.reviewer_user_id
            reviewee_user_id := rin.reviewee_user_id
            rating := rin.rating
            comment := rin.comment
            review_date := now } ∧
    (submit_review (some uid) rin rid now s).2.db.reviews =
      saveDoc s.db.reviews rid
        { review_id := rid
          project_id := rin.project_id
          reviewer_user_id := rin.reviewer_user_id
          reviewee_user_id := rin.reviewee_user_id
          rating := rin.rating
          comment := rin.comment
          review_date := now } := by
  have hnodup2 : ¬ ∃ r ∈ queryDocs s.db.reviews (fun r => r.project_id = rin.project_id),
      r.reviewer_user_id = rin.reviewer_user_id ∧
        r.reviewee_user_id = rin.reviewee_user_id := by
    simpa using hnodup
  rw [hrev, hee] at hnodup2
  simp [submit_review, submitReviewRest, huser, hrev, hproj, hcomp, hnotclient, hfl, hee,
    hnodup2, hws, takeW]

/-- Witness for the amended C9: freelancer 2 reviews client 1 on completed
project 10 with rating 100; the review is accepted and stored. -/
theorem submitReview_accepts_any_rating_witness :
    (submit_review (some 2)
      { rating := 100, project_id := 10, reviewer_user_id := 2, reviewee_user_id := 1 } 61 13
      { db := { users := baseUsers
                projects := [(10, mkProject "completed" (some 2))] } }).1 =
      .ok { review_id := 61, project_id := 10, reviewer_user_id := 2,
            reviewee_user_id := 1, rating := 100, comment := none, review_date := 13 } ∧
    (submit_review (some 2)
      { rating := 100, project_id := 10, reviewer_user_id := 2, reviewee_user_id := 1 } 61 13
      { db := { users := baseUsers
                projects := [(10, mkProject "completed" (some 2))] } }).2.db.reviews =
      saveDoc [] 61
        { review_id := 61, project_id := 10, reviewer_user_id := 2,
          reviewee_user_id := 1, rating := 100, comment := none, review_date := 13 } :=
  submitReview_accepts_any_rating _ _ _ _ _ freelancerF1 (mkProject "completed" (some 2))
    (by decide) (by decide) (by decide) (by decide) (by decide) (by decide) (by decide)
    (by decide) rfl

/-- Counterexample to C3 as stated: with write schedule `[true, false,
false]` — bid update succeeds, project update fails, and the compensating
bid write also fails (its result is never checked by the code) — the call
fails but the bid is left `accepted`, not reverted to its pre-call
`pending` state. -/
theorem acceptBid_compensation_write_can_fail :
    (lookupDoc dbOpenTwoBids.bids 20).map (fun b => b.status) = some "pending" ∧
    (accept_bid (some 1) 10 20 30 7 { db := dbOpenTwoBids, ws := [true, false, false] }).1 =
      .error .failedUpdateProjectStatus ∧
    (lookupDoc (accept_bid (some 1) 10 20 30 7
        { db := dbOpenTwoBids, ws := [true, false, false] }).2.db.bids 20).map
      (fun b => b.status) = some "accepted" := by
  decide

/-- C3 (amended): when the project-status update (step 2) fails after the
bid was set to `accepted` (step 1) and the compensating bid write itself
succeeds, the bid document is restored to exactly its pre-call value (status
`pending`) and the call fails with the 500 step-2 error; if the
compensating write also fails, the bid stays `accepted` (see the
counterexample). -/
theorem acceptBid_compensation_restores_bid
    (s : St) (uid pid bidId cid now : Nat) (user : User) (project : Project) (bid : Bid)
    (rest : List Bool)
    (huser : lookupDoc s.db.users uid = some user)
    (hproj : lookupDoc s.db.projects pid = some project)
    (hown : user.user_id = project.client_user_id)
    (hbid : lookupDoc s.db.bids bidId = some bid)
    (hbp : bid.project_id = pid)
    (hopen : project.status = "open")
    (hpend : bid.status = "pending")
    (hws : s.ws = true :: false :: true :: rest) :
    (accept_bid (some uid) pid bidId cid now s).1 = .error .failedUpdateProjectStatus ∧
    lookupDoc (accept_bid (some uid) pid bidId cid now s).2.db.bids bidId = some bid := by
  constructor
  · simp only [accept_bid, huser, hproj, hown, hbid, hbp, hopen, hpend, hws, takeW,
      ne_eq, not_true_eq_false, not_false_eq_true, ite_true, ite_false, reduceIte,
      Bool.false_eq_true, Bool.true_eq_false, not_false_iff]
  · simp only [accept_bid, huser, hproj, hown, hbid, hbp, hopen, hpend, hws, takeW,
      ne_eq, not_true_eq_false, not_false_eq_true, ite_true, ite_false, reduceIte,
      Bool.false_eq_true, Bool.true_eq_false, not_false_iff]
    rw [lookup_setDoc, if_pos rfl, lookup_setDoc, if_pos rfl, hbid]
    obtain ⟨bidid, bpid, bfl, bprop, bam, bect, bdate, bstat⟩ := bid
    have hb : bstat = "pending" := hpend
    subst hb
    rfl

/-- Witness for the amended C3: the §8 two-bid state with schedule
`[true, false, true]`; bid 20 is back to its exact pre-call document. -/
theorem acceptBid_compensation_restores_bid_witness :
    (accept_bid (some 1) 10 20 30 7
      { db := dbOpenTwoBids, ws := [true, false, true] }).1 =
      .error .failedUpdateProjectStatus ∧
    lookupDoc (accept_bid (some 1) 10 20 30 7
      { db := dbOpenTwoBids, ws := [true, false, true] }).2.db.bids 20 =
      some (mkBid 20 2 90 "pending") :=
  acceptBid_compensation_restores_bid _ _ _ _ _ _ clientC (mkProject "open")
    (mkBid 20 2 90 "pending") [] (by decide) (by decide) (by decide) (by decide)
    (by decide) (by decide) (by decide) (by decide)

theorem foldlMax_ge_init (l : List Int) : ∀ v : Int, v ≤ l.foldl max v := by
  induction l with
  | nil => intro v; simp
  | cons x t ih =>
    intro v
    simp only [List.foldl_cons]
    exact le_trans (le_max_left v x) (ih (max v x))

theorem foldlMax_ge_mem (l : List Int) : ∀ v : Int, ∀ x ∈ l, x ≤ l.foldl max v := by
  induction l with
  | nil => intro v x hx; cases hx
  | cons y t ih =>
    intro v x hx
    rcases List.mem_cons.mp hx with h | h
    · subst h
      simp only [List.foldl_cons]
      exact le_trans (le_max_right v x) (foldlMax_ge_init t (max v x))
    · exact ih (max v y) x h

theorem foldlMax_mem (l : List Int) : ∀ v : Int, l.foldl max v = v ∨ l.foldl max v ∈ l := by
  induction l with
  | nil => intro v; exact Or.inl rfl
  | cons y t ih =>
    intro v
    simp only [List.foldl_cons]
    rcases ih (max v y) with h | h
    · rcases max_choice v y with hm | hm
      · left
        rw [h, hm]
      · right
        rw [h, hm]
        exact List.mem_cons_self y t
    · right
      exact List.mem_cons_of_mem y h

theorem filterMap_version_ne_nil {l : List WorkSubmission}
    (hall : ∀ x ∈ l, x.version.isSome = true) (hne : l ≠ []) :
    l.filterMap (fun x => x.version) ≠ [] := by
  cases l with
  | nil => exact absurd rfl hne
  | cons x t =>
    have hx := hall x (List.mem_cons_self x t)
    rcases hv : x.version with _ | v
    · rw [hv] at hx
      cases hx
    · simp [List.filterMap_cons, hv]

/-- C5: for a valid `submit_work` call (assigned freelancer, project
`in_progress`, active contract, all stored versions present, writes
succeed), the new WorkSubmission's version is 1 when the project has no
submissions, is `max(existing versions) + 1` (one more than an attained
maximum) otherwise — hence strictly greater than every existing version —
and equals `n + 1` whenever the existing versions are exactly `1..n`, so
per-project versions run 1, 2, 3, .... -/
theorem submitWork_version_monotone
    (s : St) (uid pid sid now : Nat) (subIn : WorkSubmissionCreate)
    (user : User) (project : Project)
    (huser : lookupDoc s.db.users uid = some user)
    (hproj : lookupDoc s.db.projects pid = some project)
    (hfl : project.freelancer_user_id = some user.user_id)
    (hst : project.status = "in_progress")
    (hcontract : (queryDocs s.db.contracts (fun c => c.project_id = pid)).any
        (fun c => c.freelancer_id = user.user_id ∧ c.status = "active") = true)
    (hall : ∀ sub ∈ queryDocs s.db.submissions (fun x => x.project_id = pid),
        sub.version.isSome = true)
    (hws : s.ws = []) :
    ∃ sub : WorkSubmission,
      (submit_work_for_project (some uid) pid subIn sid now s).1 = .ok sub ∧
      ∃ newV : Int, sub.version = some newV ∧
        (queryDocs s.db.submissions (fun x => x.project_id = pid) = [] → newV = 1) ∧
        (∀ v ∈ (queryDocs s.db.submissions (fun x => x.project_id = pid)).filterMap
            (fun x => x.version), v < newV) ∧
        (queryDocs s.db.submissions (fun x => x.project_id = pid) ≠ [] →
          newV - 1 ∈ (queryDocs s.db.submissions (fun x => x.project_id = pid)).filterMap
            (fun x => x.version)) ∧
        (∀ n : Int, 0 ≤ n →
          (∀ v : Int, (v ∈ (queryDocs s.db.submissions
              (fun x => x.project_id = pid)).filterMap (fun x => x.version)) ↔
            (1 ≤ v ∧ v ≤ n)) →
          newV = n + 1) := by
  have hc2 : ∃ x ∈ queryDocs s.db.contracts (fun c => c.project_id = pid),
      x.freelancer_id = user.user_id ∧ x.status = "active" := by
    simpa using hcontract
  have hguard2 : ¬(¬ queryDocs s.db.submissions (fun x => x.project_id = pid) = [] ∧
      ∀ a ∈ queryDocs s.db.submissions (fun x => x.project_id = pid), a.version = none) := by
    rintro ⟨h1, h2⟩
    rcases hq : queryDocs s.db.submissions (fun x => x.project_id = pid) with _ | ⟨x, t⟩
    · exact h1 hq
    · have hxmem : x ∈ queryDocs s.db.submissions (fun y => y.project_id = pid) := by
        rw [hq]
        exact List.mem_cons_self x t
      have hs1 := hall x hxmem
      have hs2 := h2 x hxmem
      rw [hs2] at hs1
      cases hs1
  have hev : (submit_work_for_project (some uid) pid subIn sid now s).1 =
      .ok { submission_id := sid
            project_id := pid
            freelancer_id := user.user_id
            files := subIn.files
            notes := subIn.notes
            submission_date := now
            version := some (if (queryDocs s.db.submissions
                (fun x => x.project_id = pid)) = [] then 1
              else (match (queryDocs s.db.submissions
                  (fun x => x.project_id = pid)).filterMap (fun x => x.version) with
                | [] => 0
                | v :: rest => rest.foldl max v) + 1) } := by
    simp [submit_work_for_project, huser, hproj, hfl, hst, hc2, hguard2, hws, takeW]
  refine ⟨_, hev, _, rfl, ?_, ?_, ?_, ?_⟩
  · intro hempty
    simp [hempty]
  · intro v hv
    have hne : queryDocs s.db.submissions (fun x => x.project_id = pid) ≠ [] := by
      intro h0
      rw [h0] at hv
      cases hv
    rw [if_neg hne]
    rcases hvers : (queryDocs s.db.submissions
        (fun x => x.project_id = pid)).filterMap (fun x => x.version) with _ | ⟨v0, rest⟩
    · rw [hvers] at hv
      cases hv
    · rw [hvers]
      have hred : (match (v0 :: rest : List Int) with
          | [] => (0 : Int)
          | v :: rest => rest.foldl max v) = rest.foldl max v0 := rfl
      rw [hred]
      rw [hvers] at hv
      rcases List.mem_cons.mp hv with h | h
      · subst h
        have := foldlMax_ge_init rest v
        omega
      · have := foldlMax_ge_mem rest v0 v h
        omega
  · intro hne
    rw [if_neg hne]
    rcases hvers : (queryDocs s.db.submissions
        (fun x => x.project_id = pid)).filterMap (fun x => x.version) with _ | ⟨v0, rest⟩
    · exact absurd hvers (filterMap_version_ne_nil hall hne)
    · rw [hvers]
      have hred : (match (v0 :: rest : List Int) with
          | [] => (0 : Int)
          | v :: rest => rest.foldl max v) = rest.foldl max v0 := rfl
      rw [hred]
      have heq : rest.foldl max v0 + 1 - 1 = rest.foldl max v0 := by omega
      rw [heq]
      rcases foldlMax_mem rest v0 with h | h
      · rw [h]
        exact List.mem_cons_self v0 rest
      · exact List.mem_cons_of_mem v0 h
  · intro n hn hchar
    by_cases hE : queryDocs s.db.submissions (fun x => x.project_id = pid) = []
    · have hv0 : (queryDocs s.db.submissions
          (fun x => x.project_id = pid)).filterMap (fun x => x.version) = [] := by
        rw [hE]
        rfl
      have hn0 : n = 0 := by
        by_contra hne0
        have h1n : (1 : Int) ≤ n ∧ n ≤ n := ⟨by omega, le_refl n⟩
        have hmem := (hchar n).mpr h1n
        rw [hv0] at hmem
        cases hmem
      rw [if_pos hE]
      omega
    · rw [if_neg hE]
      rcases hvers : (queryDocs s.db.submissions
          (fun x => x.project_id = pid)).filterMap (fun x => x.version) with _ | ⟨v0, rest⟩
      · exact absurd hvers (filterMap_version_ne_nil hall hE)
      · rw [hvers]
        have hred : (match (v0 :: rest : List Int) with
            | [] => (0 : Int)
            | v :: rest => rest.foldl max v) = rest.foldl max v0 := rfl
        rw [hred]
        have hMmem : rest.foldl max v0 ∈ v0 :: rest := by
          rcases foldlMax_mem rest v0 with h | h
          · rw [h]
            exact List.mem_cons_self v0 rest
          · exact List.mem_cons_of_mem v0 h
        have hMle : rest.foldl max v0 ≤ n :=
          ((hchar (rest.foldl max v0)).mp (by rw [hvers]; exact hMmem)).2
        have hv0mem : (1 : Int) ≤ v0 ∧ v0 ≤ n :=
          (hchar v0).mp (by rw [hvers]; exact List.mem_cons_self v0 rest)
        have hn1 : (1 : Int) ≤ n := le_trans hv0mem.1 hv0mem.2
        have hnmem : n ∈ v0 :: rest := by
          have hx := (hchar n).mpr ⟨hn1, le_refl n⟩
          rw [hvers] at hx
          exact hx
        have hnle : n ≤ rest.foldl max v0 := by
          rcases List.mem_cons.mp hnmem with h | h
          · rw [h]
            exact foldlMax_ge_init rest v0
          · exact foldlMax_ge_mem rest v0 n h
        omega

/-- An active contract for project 10 held by freelancer 2. -/
def contractC : Contract :=
  { contract_id := 30
    project_id := 10
    client_id := 1
    freelancer_id := 2
    terms := "t"
    agreed_amount := 90
    start_date := 7
    status := "active" }

/-- A stored work submission for project 10 by freelancer 2. -/
def mkSub (id : Uuid) (v : Option Int) : WorkSubmission :=
  { submission_id := id
    project_id := 10
    freelancer_id := 2
    submission_date := 8
    version := v }

/-- The in-progress project 10 with submissions at versions 1 and 2. -/
def dbTwoSubs : DB :=
  { users := baseUsers
    projects := [(10, mkProject "in_progress" (some 2))]
    contracts := [(30, contractC)]
    submissions := [(40, mkSub 40 (some 1)), (41, mkSub 41 (some 2))] }

/-- Witness for C5: on the two-submission state the next `submit_work` call
gets a version strictly above 1 and 2, namely max + 1 = 3. -/
theorem submitWork_version_monotone_witness :
    ∃ sub : WorkSubmission,
      (submit_work_for_project (some 2) 10
        { project_id := 10, freelancer_id := 2 } 42 9 { db := dbTwoSubs }).1 = .ok sub ∧
      ∃ newV : Int, sub.version = some newV ∧
        (queryDocs dbTwoSubs.submissions (fun x => x.project_id = 10) = [] → newV = 1) ∧
        (∀ v ∈ (queryDocs dbTwoSubs.submissions (fun x => x.project_id = 10)).filterMap
            (fun x => x.version), v < newV) ∧
        (queryDocs dbTwoSubs.submissions (fun x => x.project_id = 10) ≠ [] →
          newV - 1 ∈ (queryDocs dbTwoSubs.submissions (fun x => x.project_id = 10)).filterMap
            (fun x => x.version)) ∧
        (∀ n : Int, 0 ≤ n →
          (∀ v : Int, (v ∈ (queryDocs dbTwoSubs.submissions
              (fun x => x.project_id = 10)).filterMap (fun x => x.version)) ↔
            (1 ≤ v ∧ v ≤ n)) →
          newV = n + 1) :=
  submitWork_version_monotone { db := dbTwoSubs } 2 10 42 9
    { project_id := 10, freelancer_id := 2 } freelancerF1
    (mkProject "in_progress" (some 2))
    (by decide) (by decide) (by decide) (by decide) (by decide) (by decide) rfl

/-- The transaction `checkout_project_payment` builds when it resolves
amount `a` for project `pid`, payer `payer` and assigned freelancer `fl`. -/
def checkoutTxn (tid pid payer fl : Uuid) (now : DateTs) (a : Amount) : Transaction :=
  { transaction_id := tid
    project_id := some pid
    payer_user_id := some payer
    payee_user_id := fl
    amount := a
    currency := "USD"
    transaction_type := "project_payment"
    status := "completed"
    transaction_date := now }

/-- C6: on a completed project with an assigned freelancer and no prior
completed project payment, checkout charges `project.budget` when it is set
and positive; otherwise it falls back to the first accepted bid of the
assigned freelancer when that bid's amount is positive; otherwise it fails
with 400 and writes nothing. -/
theorem checkout_amount_resolution
    (s : St) (uid pid tid now : Nat) (user : User) (project : Project) (fl : Uuid)
    (huser : lookupDoc s.db.users uid = some user)
    (hproj : lookupDoc s.db.projects pid = some project)
    (hown : user.user_id = project.client_user_id)
    (hcomp : project.status = "completed")
    (hfl : project.freelancer_user_id = some fl)
    (hnopay : (queryDocs s.db.transactions (fun t => t.project_id = some pid)).any
        (fun t => t.transaction_type = "project_payment" ∧ t.status = "completed") = false)
    (hws : s.ws = []) :
    (∀ b : Amount, project.budget = some b → 0 < b →
      (checkout_project_payment (some uid) pid tid now s).1 =
        .ok (checkoutTxn tid pid user.user_id fl now b) ∧
      (checkout_project_payment (some uid) pid tid now s).2.db.transactions =
        saveDoc s.db.transactions tid (checkoutTxn tid pid user.user_id fl now b)) ∧
    (budgetInvalid project.budget = true →
      ∀ bid : Bid, (queryDocs s.db.bids (fun b => b.project_id = pid)).find?
          (fun b => b.status = "accepted" ∧ b.freelancer_user_id = fl) = some bid →
        ((0 < bid.amount →
          (checkout_project_payment (some uid) pid tid now s).1 =
            .ok (checkoutTxn tid pid user.user_id fl now bid.amount) ∧
          (checkout_project_payment (some uid) pid tid now s).2.db.transactions =
            saveDoc s.db.transactions tid
              (checkoutTxn tid pid user.user_id fl now bid.amount)) ∧
        (bid.amount ≤ 0 →
          (checkout_project_payment (some uid) pid tid now s).1 =
            .error .budgetInvalidNoAcceptedBid ∧
          (checkout_project_payment (some uid) pid tid now s).2 = s))) ∧
    (budgetInvalid project.budget = true →
      (queryDocs s.db.bids (fun b => b.project_id = pid)).find?
          (fun b => b.status = "accepted" ∧ b.freelancer_user_id = fl) = none →
      (checkout_project_payment (some uid) pid tid now s).1 =
        .error .budgetInvalidNoAcceptedBid ∧
      (checkout_project_payment (some uid) pid tid now s).2 = s) ∧
    Err.budgetInvalidNoAcceptedBid.code = 400 := by
  have hnopay2 : ¬ ∃ t ∈ queryDocs s.db.transactions (fun t => t.project_id = some pid),
      t.transaction_type = "project_payment" ∧ t.status = "completed" := by
    simpa using hnopay
  refine ⟨?_, ?_, ?_, rfl⟩
  · intro b hb hpos
    have hbi2 : budgetInvalid (some b) = false := by
      simp [budgetInvalid, not_le.mpr hpos]
    constructor <;>
      simp [checkout_project_payment, huser, hproj, hown, hcomp, hfl, hnopay2, hbi2, hb,
        hws, takeW, checkoutTxn]
  · intro hbi bid hfind
    simp only [Bool.decide_and] at hfind
    refine ⟨?_, ?_⟩
    · intro hpos
      constructor <;>
        simp [checkout_project_payment, huser, hproj, hown, hcomp, hfl, hnopay2, hbi,
          hfind, hpos, hws, takeW, checkoutTxn]
    · intro hneg
      have hnpos : ¬ (0 < bid.amount) := not_lt.mpr hneg
      constructor <;>
        simp [checkout_project_payment, huser, hproj, hown, hcomp, hfl, hnopay2, hbi,
          hfind, hnpos, hws, takeW]
  · intro hbi hfind
    simp only [Bool.decide_and] at hfind
    constructor <;>
      simp [checkout_project_payment, huser, hproj, hown, hcomp, hfl, hnopay2, hbi,
        hfind, hws, takeW]

/-- Witness for C6 (budget branch): the §8 checkout on completed project 10
with budget 100 creates the completed payment transaction of amount 100. -/
theorem checkout_amount_resolution_witness :
    (0 : Amount) < 100 ∧
    (checkout_project_payment (some 1) 10 50 11
      { db := { users := baseUsers
                projects := [(10, mkProject "completed" (some 2))]
                bids := [(20, mkBid 20 2 90 "accepted")] } }).1 =
      .ok (checkoutTxn 50 10 1 2 11 100) ∧
    (checkout_project_payment (some 1) 10 50 11
      { db := { users := baseUsers
                projects := [(10, mkProject "completed" (some 2))]
                bids := [(20, mkBid 20 2 90 "accepted")] } }).2.db.transactions =
      saveDoc [] 50 (checkoutTxn 50 10 1 2 11 100) := by
  have h := (checkout_amount_resolution
    { db := { users := baseUsers
              projects := [(10, mkProject "completed" (some 2))]
              bids := [(20, mkBid 20 2 90 "accepted")] } }
    1 10 50 11 clientC (mkProject "completed" (some 2)) 2
    (by decide) (by decide) (by decide) (by decide) (by decide) (by decide) rfl).1
    100 (by decide) (by norm_num)
  exact ⟨by norm_num, h.1, h.2⟩

theorem rejectOthers_ws_nil (bidId : Uuid) (snap : List Bid) :
    ∀ db : DB, (rejectOthers bidId snap (db, [])).2 = [] := by
  induction snap with
  | nil => intro db; rfl
  | cons b rest ih =>
    intro db
    by_cases hc : b.bid_id ≠ bidId ∧ b.status = "pending"
    · have hacc : rejectOthers bidId (b :: rest) (db, []) =
          rejectOthers bidId rest
            ({ db with bids := setDoc db.bids b.bid_id markRejected }, []) := by
        rw [rejectOthers, if_pos hc]
        rfl
      rw [hacc]
      exact ih _
    · have hacc : rejectOthers bidId (b :: rest) (db, []) =
          rejectOthers bidId rest (db, []) := by
        rw [rejectOthers, if_neg hc]
      rw [hacc]
      exact ih _

theorem acceptBidFinish_eval_nil (pid bidId cid : Uuid) (tp : Project) (tb : Bid)
    (now : DateTs) (db2 : DB) :
    acceptBidFinish pid bidId cid tp tb now db2 [] =
      (.ok "Bid accepted, project in progress, and contract created.",
        { db := { (rejectOthers bidId
              (queryDocs db2.bids (fun b => b.project_id = pid)) (db2, [])).1 with
            contracts := saveDoc (rejectOthers bidId
                (queryDocs db2.bids (fun b => b.project_id = pid)) (db2, [])).1.contracts cid
              { contract_id := cid
                project_id := tp.project_id
                client_id := tp.client_user_id
                freelancer_id := tb.freelancer_user_id
                terms := "Details as per project description and bid proposal."
                agreed_amount := tb.amount
                start_date := now
                end_date := none
                status := "active" } },
          ws := [] }) := by
  unfold acceptBidFinish
  rcases hro : rejectOthers bidId
      (queryDocs db2.bids (fun b => b.project_id = pid)) (db2, []) with ⟨db3, ws3⟩
  have hw : ws3 = [] := by
    have h := rejectOthers_ws_nil bidId
      (queryDocs db2.bids (fun b => b.project_id = pid)) db2
    rw [hro] at h
    exact h
  subst hw
  simp [hro, takeW]

/-- C2: a valid `accept_bid` by the owning client on a pending bid of the
open project, with every store write succeeding, accepts the bid, moves the
project to `in_progress` with the bid's freelancer assigned, rejects every
other pending bid on the project, and appends exactly one new active
Contract whose `agreed_amount` is the accepted bid's amount. -/
theorem accept_bid_success_effects
    (s : St) (uid pid bidId cid now : Nat) (user : User) (project : Project) (bid : Bid)
    (huser : lookupDoc s.db.users uid = some user)
    (hproj : lookupDoc s.db.projects pid = some project)
    (hown : user.user_id = project.client_user_id)
    (hbid : lookupDoc s.db.bids bidId = some bid)
    (hbp : bid.project_id = pid)
    (hopen : project.status = "open")
    (hpend : bid.status = "pending")
    (hws : s.ws = [])
    (hnodup : (s.db.bids.map Prod.fst).Nodup)
    (hkeys : ∀ e ∈ s.db.bids, e.2.bid_id = e.1)
    (hfresh : s.db.contracts.any (fun e => e.1 = cid) = false) :
    (accept_bid (some uid) pid bidId cid now s).1 =
      .ok "Bid accepted, project in progress, and contract created." ∧
    lookupDoc (accept_bid (some uid) pid bidId cid now s).2.db.bids bidId =
      some { bid with status := "accepted" } ∧
    lookupDoc (accept_bid (some uid) pid bidId cid now s).2.db.projects pid =
      some { project with
        status := "in_progress"
        freelancer_user_id := some bid.freelancer_user_id } ∧
    (∀ k b2, (k, b2) ∈ s.db.bids → k ≠ bidId → b2.project_id = pid →
      b2.status = "pending" →
      lookupDoc (accept_bid (some uid) pid bidId cid now s).2.db.bids k =
        some (markRejected b2)) ∧
    (accept_bid (some uid) pid bidId cid now s).2.db.contracts =
      s.db.contracts ++ [(cid,
        { contract_id := cid
          project_id := project.project_id
          client_id := project.client_user_id
          freelancer_id := bid.freelancer_user_id
          terms := "Details as per project description and bid proposal."
          agreed_amount := bid.amount
          start_date := now
          end_date := none
          status := "active" })] := by
  have hev : accept_bid (some uid) pid bidId cid now s =
      acceptBidFinish pid bidId cid project bid now
        { users := s.db.users
          projects := setDoc s.db.projects pid
            (fun p => { p with
              status := "in_progress"
              freelancer_user_id := some bid.freelancer_user_id })
          bids := setDoc s.db.bids bidId (fun b => { b with status := "accepted" })
          contracts := s.db.contracts
          submissions := s.db.submissions
          transactions := s.db.transactions
          reviews := s.db.reviews
          freelancer_profiles := s.db.freelancer_profiles } [] := by
    simp [accept_bid, huser, hproj, hown, hbid, hbp, hopen, hpend, hws, takeW]
  rw [hev, acceptBidFinish_eval_nil]
  refine ⟨rfl, ?_, ?_, ?_, ?_⟩
  · rw [rejectOthers_lookup_bids]
    have haccnone : ((queryDocs
        (setDoc s.db.bids bidId (fun b => { b with status := "accepted" }))
        (fun b => b.project_id = pid)).any
          (fun x => x.bid_id = bidId ∧ x.bid_id ≠ bidId ∧ x.status = "pending")) = false := by
      rw [List.any_eq_false]
      intro x _
      simp only [decide_eq_true_eq]
      rintro ⟨h1, h2, _⟩
      exact h2 h1
    rw [haccnone]
    rw [if_neg (by simp)]
    rw [lookup_setDoc, if_pos rfl, hbid]
    rfl
  · rw [rejectOthers_projects]
    rw [lookup_setDoc, if_pos rfl, hproj]
    rfl
  · intro k b2 hmem hkne hb2p hb2s
    rw [rejectOthers_lookup_bids]
    have hmem2 : (k, b2) ∈ setDoc s.db.bids bidId (fun b => { b with status := "accepted" }) :=
      mem_setDoc_of_ne hmem bidId _ hkne
    have hkey : b2.bid_id = k := hkeys (k, b2) hmem
    have hsnap : b2 ∈ queryDocs
        (setDoc s.db.bids bidId (fun b => { b with status := "accepted" }))
        (fun b => b.project_id = pid) := by
      refine List.mem_map.mpr ⟨(k, b2), List.mem_filter.mpr ⟨hmem2, ?_⟩, rfl⟩
      simp [hb2p]
    have hany : ((queryDocs
        (setDoc s.db.bids bidId (fun b => { b with status := "accepted" }))
        (fun b => b.project_id = pid)).any
          (fun x => x.bid_id = k ∧ x.bid_id ≠ bidId ∧ x.status = "pending")) = true := by
      rw [List.any_eq_true]
      refine ⟨b2, hsnap, ?_⟩
      simp only [decide_eq_true_eq]
      exact ⟨hkey, by rw [hkey]; exact hkne, hb2s⟩
    rw [hany, if_pos rfl]
    have hnodup2 : ((setDoc s.db.bids bidId
        (fun b => { b with status := "accepted" })).map Prod.fst).Nodup := by
      have hsame : (setDoc s.db.bids bidId
          (fun b => { b with status := "accepted" })).map Prod.fst =
          s.db.bids.map Prod.fst := by
        clear hmem2 hsnap hany hmem
        induction s.db.bids with
        | nil => rfl
        | cons e t ih =>
          by_cases he : e.1 = bidId <;> simp [setDoc, he, ih]
      rw [hsame]
      exact hnodup
    rw [lookup_of_mem_nodup hnodup2 hmem2]
    rfl
  · rw [rejectOthers_contracts]
    exact saveDoc_fresh _ _ _ hfresh

/-- Witness for C2, the spec §8 scenario: accepting bid 20 (amount 90) on
open project 10 accepts it, rejects pending bid 21, assigns freelancer 2,
and creates the single active contract 30 with agreed_amount 90. -/
theorem accept_bid_success_effects_witness :
    (accept_bid (some 1) 10 20 30 7 { db := dbOpenTwoBids }).1 =
      .ok "Bid accepted, project in progress, and contract created." ∧
    lookupDoc (accept_bid (some 1) 10 20 30 7 { db := dbOpenTwoBids }).2.db.bids 20 =
      some { mkBid 20 2 90 "pending" with status := "accepted" } ∧
    lookupDoc (accept_bid (some 1) 10 20 30 7 { db := dbOpenTwoBids }).2.db.projects 10 =
      some { mkProject "open" with
        status := "in_progress"
        freelancer_user_id := some 2 } ∧
    lookupDoc (accept_bid (some 1) 10 20 30 7 { db := dbOpenTwoBids }).2.db.bids 21 =
      some (markRejected (mkBid 21 3 80 "pending")) ∧
    (accept_bid (some 1) 10 20 30 7 { db := dbOpenTwoBids }).2.db.contracts =
      [(30, { contract_id := 30
              project_id := 10
              client_id := 1
              freelancer_id := 2
              terms := "Details as per project description and bid proposal."
              agreed_amount := 90
              start_date := 7
              end_date := none
              status := "active" })] := by
  have h := accept_bid_success_effects { db := dbOpenTwoBids } 1 10 20 30 7
    clientC (mkProject "open") (mkBid 20 2 90 "pending")
    (by decide) (by decide) (by decide) (by decide) (by decide) (by decide)
    (by decide) rfl (by decide) (by decide) (by decide)
  exact ⟨h.1, h.2.1, h.2.2.1,
    h.2.2.2.1 21 (mkBid 21 3 80 "pending") (by decide) (by decide) (by decide) (by decide),
    h.2.2.2.2⟩
